import Mathlib

/-!
A shallow embedding of the checkpoint-codec and embedding-loader utilities of
`fairseq/utils.py`, together with proofs of the behavioural properties of the
upgrade procedure, the save/load state machine, the retrying persistent save,
the ensemble loader and the embedding-file parser.

Python dictionaries with a fixed, known key universe are modelled as
structures of `Option` fields (`none` = key absent); dictionaries with an
open key universe (the embedding table, the extra-state record) are modelled
as insertion-ordered association lists.  Exceptions are modelled by `Option`
/ `Except` results, and numeric scalars are abstract type parameters (or
exact decimal numerals where the source parses decimal literals).
-/

namespace Fairseq

/-- One entry of `optimizer_history`, as built by `save_state` and by
`_upgrade_state_dict`: `{'criterion_name': ..., 'optimizer': ..., 'best_loss': ...}`. -/
structure OptimEpoch (O B : Type) where
  criterion_name : String
  optimizer : O
  best_loss : B
deriving DecidableEq, Repr

/-- A checkpoint state dictionary with the fixed key universe touched by
`_upgrade_state_dict`, `save_state` and `load_state`.  A field value `none`
means the key is absent from the dictionary.  `A` is the type of the stored
`args`, `M` of a model state dict, `O` of an optimizer state dict, `B` of a
numeric scalar (losses, epoch counters, offsets). -/
structure StateDict (A M O B : Type) where
  args : Option A
  model : Option M
  optimizer : Option O
  best_loss : Option B
  epoch : Option B
  batch_offset : Option B
  val_loss : Option B
  optimizer_history : Option (List (OptimEpoch O B))
  extra_state : Option (List (String × B))
deriving DecidableEq, Repr

variable {A M O B : Type}

/-- First branch of `_upgrade_state_dict`:
`if 'optimizer_history' not in state:` synthesize a single-entry history from
the legacy top-level `optimizer` and `best_loss` fields (criterion name
`criterions.CrossEntropyCriterion.__name__ = "CrossEntropyCriterion"`), then
`del state['optimizer']; del state['best_loss']`.  A missing legacy field
raises `KeyError`, modelled as `none`. -/
def upgradeHistoryStep (s : StateDict A M O B) : Option (StateDict A M O B) :=
  match s.optimizer_history with
  | some _ => some s
  | none =>
    match s.optimizer, s.best_loss with
    | some o, some b =>
      some { s with
        optimizer_history := some [⟨"CrossEntropyCriterion", o, b⟩],
        optimizer := none,
        best_loss := none }
    | _, _ => none

/-- Second branch of `_upgrade_state_dict`:
`if 'epoch' in state and 'extra_state' not in state:` move `epoch`,
`batch_offset`, `val_loss` into a new `extra_state` sub-dictionary and delete
them from the top level.  A missing `batch_offset` or `val_loss` raises
`KeyError`, modelled as `none`. -/
def upgradeExtraStep (s : StateDict A M O B) : Option (StateDict A M O B) :=
  match s.epoch, s.extra_state with
  | some e, none =>
    match s.batch_offset, s.val_loss with
    | some bo, some v =>
      some { s with
        extra_state := some [("epoch", e), ("batch_offset", bo), ("val_loss", v)],
        epoch := none,
        batch_offset := none,
        val_loss := none }
    | _, _ => none
  | _, _ => some s

/-- The function `_upgrade_state_dict(state)`: the two branches run in order on the same
dictionary. -/
def upgrade_state_dict (s : StateDict A M O B) : Option (StateDict A M O B) :=
  (upgradeHistoryStep s).bind upgradeExtraStep

theorem upgradeHistoryStep_optimizer_history_isSome
    {s t : StateDict A M O B} (h : upgradeHistoryStep s = some t) :
    t.optimizer_history.isSome := by
  unfold upgradeHistoryStep at h
  cases hh : s.optimizer_history with
  | some l => rw [hh] at h; cases h; rw [hh]; rfl
  | none =>
    rw [hh] at h
    cases ho : s.optimizer with
    | none => rw [ho] at h; cases h
    | some o =>
      cases hb : s.best_loss with
      | none => rw [ho, hb] at h; cases h
      | some b => rw [ho, hb] at h; cases h; rfl

theorem upgradeHistoryStep_of_isSome
    {s : StateDict A M O B} (h : s.optimizer_history.isSome) :
    upgradeHistoryStep s = some s := by
  unfold upgradeHistoryStep
  cases hh : s.optimizer_history with
  | some l => rfl
  | none => rw [hh] at h; cases h

theorem upgradeExtraStep_preserves_optimizer_history
    {s t : StateDict A M O B} (h : upgradeExtraStep s = some t) :
    t.optimizer_history = s.optimizer_history := by
  unfold upgradeExtraStep at h
  cases he : s.epoch with
  | none => rw [he] at h; cases h; rfl
  | some e =>
    cases hx : s.extra_state with
    | some x => rw [he, hx] at h; cases h; rfl
    | none =>
      rw [he, hx] at h
      cases hbo : s.batch_offset with
      | none => rw [hbo] at h; cases h
      | some bo =>
        cases hv : s.val_loss with
        | none => rw [hbo, hv] at h; cases h
        | some v => rw [hbo, hv] at h; cases h; rfl

theorem upgradeExtraStep_idem
    {s t : StateDict A M O B} (h : upgradeExtraStep s = some t) :
    upgradeExtraStep t = some t := by
  unfold upgradeExtraStep at h ⊢
  cases he : s.epoch with
  | none => rw [he] at h; cases h; rw [he]
  | some e =>
    cases hx : s.extra_state with
    | some x => rw [he, hx] at h; cases h; rw [he, hx]
    | none =>
      rw [he, hx] at h
      cases hbo : s.batch_offset with
      | none => rw [hbo] at h; cases h
      | some bo =>
        cases hv : s.val_loss with
        | none => rw [hbo, hv] at h; cases h
        | some v => rw [hbo, hv] at h; cases h; rfl

/-- C1: the format-upgrade procedure is idempotent: for every snapshot
dictionary, applying `_upgrade_state_dict` twice yields the same result as
applying it once (this includes the failing case, where a `KeyError` on the
first application propagates), and an already-upgraded snapshot — one that
contains an `optimizer_history` field and an `extra_state` field — is left
unchanged by a further application. -/
theorem upgrade_state_dict_idempotent (s : StateDict A M O B) :
    (upgrade_state_dict s).bind upgrade_state_dict = upgrade_state_dict s ∧
    (s.optimizer_history.isSome → s.extra_state.isSome →
      upgrade_state_dict s = some s) := by
  constructor
  · cases hu : upgrade_state_dict s with
    | none => rfl
    | some t =>
      have hsplit : ∃ u, upgradeHistoryStep s = some u ∧ upgradeExtraStep u = some t := by
        unfold upgrade_state_dict at hu
        cases hh : upgradeHistoryStep s with
        | none => rw [hh] at hu; cases hu
        | some u => exact ⟨u, rfl, by rw [hh] at hu; exact hu⟩
      obtain ⟨u, hh, he⟩ := hsplit
      have h1 : t.optimizer_history.isSome := by
        rw [upgradeExtraStep_preserves_optimizer_history he]
        exact upgradeHistoryStep_optimizer_history_isSome hh
      show (some t).bind upgrade_state_dict = some t
      unfold upgrade_state_dict
      simp only [Option.some_bind]
      rw [upgradeHistoryStep_of_isSome h1]
      simp only [Option.some_bind]
      exact upgradeExtraStep_idem he
  · intro hh hx
    unfold upgrade_state_dict
    rw [upgradeHistoryStep_of_isSome hh]
    simp only [Option.some_bind]
    unfold upgradeExtraStep
    cases he : s.epoch with
    | none => rfl
    | some e =>
      cases hx2 : s.extra_state with
      | some x => rfl
      | none => rw [hx2] at hx; cases hx

/-- Witness for C1 at a concrete already-upgraded snapshot. -/
theorem upgrade_state_dict_idempotent_witness :
    upgrade_state_dict
      (⟨some 0, some 1, none, none, none, none, none,
        some [⟨"CrossEntropyCriterion", (2 : Int), (3 : Int)⟩],
        some [("epoch", 4)]⟩ : StateDict Int Int Int Int) =
    some ⟨some 0, some 1, none, none, none, none, none,
        some [⟨"CrossEntropyCriterion", 2, 3⟩], some [("epoch", 4)]⟩ :=
  (upgrade_state_dict_idempotent _).2 (by decide) (by decide)

/-- C2: a v1-shaped snapshot — top-level `model`, `optimizer`, `best_loss`,
`epoch`, `batch_offset`, `val_loss` and no `optimizer_history` or
`extra_state` — upgrades to the v3 shape: exactly one history entry with
criterion name `"CrossEntropyCriterion"` and the legacy `optimizer` /
`best_loss` values, an `extra_state` record holding exactly the legacy
`epoch`, `batch_offset` and `val_loss`, and every legacy top-level field
removed. -/
theorem upgrade_state_dict_v1_to_v3 (a : Option A) (m : M) (o : O) (b e bo v : B) :
    upgrade_state_dict
      (⟨a, some m, some o, some b, some e, some bo, some v, none, none⟩ :
        StateDict A M O B) =
    some ⟨a, some m, none, none, none, none, none,
      some [⟨"CrossEntropyCriterion", o, b⟩],
      some [("epoch", e), ("batch_offset", bo), ("val_loss", v)]⟩ :=
  rfl

/-- The observable outcome of a successful `load_state` call: the collaborator
states after the call (model weights, optimizer state dict, the scheduler's
`best` field) and the returned pair `(extra_state, optim_history)`, together
with the log messages the call emitted.  The body of `load_state` contains no
logging statement, so `logs` is always `[]`. -/
structure LoadResult (M O B : Type) where
  model : M
  optimizer : O
  sched_best : B
  extra_state : Option (List (String × B))
  optim_history : List (OptimEpoch O B)
  logs : List String
deriving DecidableEq, Repr

/-- The function `load_state(filename, model, criterion, optimizer, lr_scheduler, ...)`.
`file` is the content of the snapshot at `filename` (`none` when
`os.path.exists` is false), `criterion_name` is
`criterion.__class__.__name__`, and `model0 / optim0 / best0` are the
caller-supplied states of the collaborators before the call.  The result is
`none` when the call raises (`KeyError` on a missing post-upgrade key,
`IndexError` on an empty history). -/
def load_state (file : Option (StateDict A M O B)) (criterion_name : String)
    (model0 : M) (optim0 : O) (best0 : B) : Option (LoadResult M O B) :=
  match file with
  | none => some ⟨model0, optim0, best0, none, [], []⟩
  | some raw => do
    let st ← upgrade_state_dict raw
    let m ← st.model
    let hist ← st.optimizer_history
    let last ← hist.getLast?
    let (o, b) :=
      if last.criterion_name = criterion_name then (last.optimizer, last.best_loss)
      else (optim0, best0)
    let ex ← st.extra_state
    some ⟨m, o, b, some ex, hist, []⟩

/-- C6: when no snapshot file exists at the given path, `load_state` returns
the NOT-FOUND sentinel `(None, [])` — empty extra state, empty optimizer
history — without raising and with the caller-supplied model, optimizer and
scheduler states untouched. -/
theorem load_state_missing_file (criterion_name : String) (m0 : M) (o0 : O) (b0 : B) :
    load_state (none : Option (StateDict A M O B)) criterion_name m0 o0 b0 =
      some ⟨m0, o0, b0, none, [], []⟩ :=
  rfl

/-- C3 (amended): on load of an existing snapshot, the optimizer state and
the scheduler's best-loss value are restored from the last entry of the
optimizer history if and only if that entry's recorded criterion name equals
the current criterion's type name; on a mismatch the caller-supplied
optimizer and scheduler states are left completely unchanged and the skip is
silent (no log message is emitted — the source has no logging call here),
while the loaded model weights and the returned extra state and history do
not depend on the comparison either way. -/
theorem load_state_criterion_guard (raw st : StateDict A M O B)
    (hist : List (OptimEpoch O B)) (last : OptimEpoch O B) (m : M)
    (ex : List (String × B)) (c : String) (m0 : M) (o0 : O) (b0 : B)
    (h1 : upgrade_state_dict raw = some st)
    (h2 : st.model = some m)
    (h3 : st.optimizer_history = some hist)
    (h4 : hist.getLast? = some last)
    (h5 : st.extra_state = some ex) :
    load_state (some raw) c m0 o0 b0 =
      some ⟨m,
        (if last.criterion_name = c then last.optimizer else o0),
        (if last.criterion_name = c then last.best_loss else b0),
        some ex, hist, []⟩ := by
  by_cases hc : last.criterion_name = c
  · simp [load_state, h1, h2, h3, h4, h5, hc]
  · simp [load_state, h1, h2, h3, h4, h5, hc]

/-- Witness for C3 at a concrete mismatching snapshot: the last history entry
records criterion `"A"`, the current criterion is `"B"`, and the sentinel
optimizer state `5` and scheduler best `6` survive the load unchanged. -/
theorem load_state_criterion_guard_witness :
    load_state
      (some (⟨none, some 10, none, none, none, none, none,
        some [⟨"A", 7, 8⟩], some []⟩ : StateDict Int Int Int Int))
      "B" 9 5 6 =
      some ⟨10, 5, 6, some [], [⟨"A", 7, 8⟩], []⟩ := by
  have h := load_state_criterion_guard
    (A := Int) (M := Int) (O := Int) (B := Int)
    (⟨none, some 10, none, none, none, none, none, some [⟨"A", 7, 8⟩], some []⟩)
    (⟨none, some 10, none, none, none, none, none, some [⟨"A", 7, 8⟩], some []⟩)
    [⟨"A", 7, 8⟩] ⟨"A", 7, 8⟩ 10 [] "B" 9 5 6 rfl rfl rfl rfl rfl
  simpa using h

/-- Counterexample for C3 as stated: the claim asserts that a criterion-name
mismatch "is logged as an informational skip", but on this concrete
mismatching load (last entry criterion `"A"`, current criterion `"B"`) the
call emits no log message at all: `logs = []`. -/
theorem load_state_mismatch_not_logged :
    ("A" : String) ≠ "B" ∧
    load_state
      (some (⟨none, some 10, none, none, none, none, none,
        some [⟨"A", 7, 8⟩], some []⟩ : StateDict Int Int Int Int))
      "B" 9 5 6 =
      some ⟨10, 5, 6, some [], [⟨"A", 7, 8⟩], []⟩ ∧
    (some ⟨10, 5, 6, some [], [⟨"A", 7, 8⟩], []⟩ :
        Option (LoadResult Int Int Int)).map LoadResult.logs = some [] :=
  ⟨by decide, rfl, rfl⟩

/-- One unrolling of the `for i in range(3)` retry loop of
`torch_persistent_save`: `attempt i` is the outcome of the `i`-th
`torch.save(*args, **kwargs)` call; on an exception the error is logged only
when `i == 2` (`logging.error(traceback.format_exc())`), and the loop moves
on to the next attempt. -/
def persistentSaveLoop (attempt : Nat → Except String α) : Nat → Nat → Option α × List String
  | _, 0 => (none, [])
  | i, fuel + 1 =>
    match attempt i with
    | Except.ok v => (some v, [])
    | Except.error e =>
      let logs := if i == 2 then [e] else []
      let rest := persistentSaveLoop attempt (i + 1) fuel
      (rest.1, logs ++ rest.2)

/-- The function `torch_persistent_save(*args, **kwargs)`: run the retry loop for the
three indices of `range(3)`.  The first component is the value returned
(`none` when every attempt failed and the function falls off the loop), the
second the list of logged error messages. -/
def torch_persistent_save (attempt : Nat → Except String α) : Option α × List String :=
  persistentSaveLoop attempt 0 3

theorem torch_persistent_save_eval (attempt : Nat → Except String α) :
    torch_persistent_save attempt =
      match attempt 0 with
      | Except.ok v => (some v, [])
      | Except.error _ =>
        match attempt 1 with
        | Except.ok v => (some v, [])
        | Except.error _ =>
          match attempt 2 with
          | Except.ok v => (some v, [])
          | Except.error e => (none, [e]) := by
  unfold torch_persistent_save
  cases h0 : attempt 0 <;> cases h1 : attempt 1 <;> cases h2 : attempt 2 <;>
    simp [persistentSaveLoop, h0, h1, h2]

/-- C4: `torch_persistent_save` never propagates a write failure: its result
only depends on the first three attempt outcomes (the write is attempted at
most 3 times), when all three attempts fail it still returns normally — with
no value written and exactly the third failure's error logged — and a
message is logged only when all three attempts fail. -/
theorem torch_persistent_save_spec (attempt : Nat → Except String α) :
    (∀ b : Nat → Except String α, (∀ i, i < 3 → attempt i = b i) →
      torch_persistent_save attempt = torch_persistent_save b) ∧
    (∀ e0 e1 e2, attempt 0 = Except.error e0 → attempt 1 = Except.error e1 →
      attempt 2 = Except.error e2 →
      torch_persistent_save attempt = (none, [e2])) ∧
    ((torch_persistent_save attempt).2 ≠ [] →
      ∀ i, i < 3 → ∃ e, attempt i = Except.error e) := by
  refine ⟨?_, ?_, ?_⟩
  · intro b hb
    rw [torch_persistent_save_eval attempt, torch_persistent_save_eval b,
      hb 0 (by norm_num), hb 1 (by norm_num), hb 2 (by norm_num)]
  · intro e0 e1 e2 h0 h1 h2
    rw [torch_persistent_save_eval attempt, h0, h1, h2]
  · intro hne i hi
    rw [torch_persistent_save_eval attempt] at hne
    cases h0 : attempt 0 with
    | ok v => rw [h0] at hne; simp at hne
    | error e0 =>
      cases h1 : attempt 1 with
      | ok v => rw [h0, h1] at hne; simp at hne
      | error e1 =>
        cases h2 : attempt 2 with
        | ok v => rw [h0, h1, h2] at hne; simp at hne
        | error e2 =>
          interval_cases i
          · exact ⟨e0, h0⟩
          · exact ⟨e1, h1⟩
          · exact ⟨e2, h2⟩

/-- Witness for C4: with storage that always fails with `"boom"`, the save
returns normally with nothing written and the single logged message
`"boom"`. -/
theorem torch_persistent_save_spec_witness :
    torch_persistent_save (fun _ => (Except.error "boom" : Except String Unit)) =
      (none, ["boom"]) :=
  (torch_persistent_save_spec _).2.1 "boom" "boom" "boom" rfl rfl rfl

/-- The state dictionary built by one `save_state` call (it is then handed to
`torch_persistent_save`).  `extra_state` is an opaque caller record, modelled
as an association list. -/
structure SavedState (A M O B : Type) where
  args : A
  model : M
  optimizer_history : List (OptimEpoch O B)
  extra_state : List (String × B)
deriving DecidableEq, Repr

/-- The function `save_state(filename, args, model, criterion, optimizer, lr_scheduler,
optim_history=None, extra_state=None)`.  Collaborators are abstracted to the
values the source reads from them: `model_sd = model.state_dict()`,
`criterion_name = criterion.__class__.__name__`,
`optimizer_sd = optimizer.state_dict()`, `sched_best = lr_scheduler.best`.
A `none` history / extra state takes the default `[]` / `{}`. -/
def save_state (args : A) (model_sd : M) (criterion_name : String)
    (optimizer_sd : O) (sched_best : B)
    (optim_history : Option (List (OptimEpoch O B)))
    (extra_state : Option (List (String × B))) : SavedState A M O B :=
  { args := args,
    model := model_sd,
    optimizer_history :=
      optim_history.getD [] ++ [⟨criterion_name, optimizer_sd, sched_best⟩],
    extra_state := extra_state.getD [] }

/-- The optimizer history written by a sequence of `save_state` calls on the
same logical run: the first call is passed the default (`None`) history, and
each later call is passed the history produced by the previous one.  Each
call is described by the tuple
`(model_sd, criterion_name, optimizer_sd, sched_best)`. -/
def saveStateSeq (args : A) (calls : List (M × String × O × B)) :
    List (OptimEpoch O B) :=
  match calls with
  | [] => []
  | (m, c, o, b) :: rest =>
    rest.foldl
      (fun h x => (save_state args x.1 x.2.1 x.2.2.1 x.2.2.2 (some h) none).optimizer_history)
      ((save_state args m c o b none none).optimizer_history)

theorem foldl_append_singleton {γ δ : Type} (g : γ → δ) (l : List γ) (init : List δ) :
    l.foldl (fun h x => h ++ [g x]) init = init ++ l.map g := by
  induction l generalizing init with
  | nil => simp
  | cons a t ih => simp [List.foldl_cons, ih]

/-- C5: `save_state` called `N` times in sequence, each call passed the
history produced by the previous one (starting from the empty default),
yields an optimizer history that is exactly the per-call entries
`⟨criterion_name, optimizer_sd, sched_best⟩` in call order — so its length is
`N` — and each further save appends exactly one new entry while leaving every
earlier entry unchanged. -/
theorem save_state_history_append (args : A) (calls : List (M × String × O × B)) :
    saveStateSeq args calls =
      calls.map (fun x => (⟨x.2.1, x.2.2.1, x.2.2.2⟩ : OptimEpoch O B)) ∧
    (saveStateSeq args calls).length = calls.length ∧
    (∀ x : M × String × O × B,
      saveStateSeq args (calls ++ [x]) =
        saveStateSeq args calls ++ [⟨x.2.1, x.2.2.1, x.2.2.2⟩]) := by
  have key : ∀ cs : List (M × String × O × B),
      saveStateSeq args cs =
        cs.map (fun x => (⟨x.2.1, x.2.2.1, x.2.2.2⟩ : OptimEpoch O B)) := by
    intro cs
    cases cs with
    | nil => rfl
    | cons a rest =>
      show rest.foldl _ _ = _
      have hf : (fun (h : List (OptimEpoch O B)) (x : M × String × O × B) =>
          (save_state args x.1 x.2.1 x.2.2.1 x.2.2.2 (some h) none).optimizer_history) =
          fun h x => h ++ [(⟨x.2.1, x.2.2.1, x.2.2.2⟩ : OptimEpoch O B)] := by
        funext h x
        simp [save_state]
      rw [hf]
      rw [foldl_append_singleton
        (fun x : M × String × O × B => (⟨x.2.1, x.2.2.1, x.2.2.2⟩ : OptimEpoch O B))
        rest ((save_state args a.1 a.2.1 a.2.2.1 a.2.2.2 none none).optimizer_history)]
      simp [save_state]
  refine ⟨key calls, ?_, ?_⟩
  · rw [key calls]; simp
  · intro x
    rw [key calls, key (calls ++ [x])]
    simp

/-- A Python exception, identified by its class name and message. -/
structure PyError where
  etype : String
  msg : String
deriving DecidableEq, Repr

/-- The two fields of an ensemble snapshot that
`load_ensemble_for_inference` reads: `state['args']` and `state['model']`. -/
structure EnsSnapshot (A M : Type) where
  args : A
  model : M
deriving DecidableEq, Repr

/-- A model produced by `build_model(args, src_dict, dst_dict)` followed by
`model.load_state_dict(state['model'])`, abstracted to the data it was built
from: the configuration, the two vocabularies, and the loaded weights. -/
structure BuiltModel (A S D M : Type) where
  cfg : A
  src : S
  dst : D
  weights : M
deriving DecidableEq, Repr

variable {S D : Type}

/-- The first loop of `load_ensemble_for_inference`: for each filename in
order, `raise IOError('Model file not found: ...')` if `os.path.exists` is
false, else `torch.load` it.  `fs` maps a filename to the snapshot stored
there (`none` = the file does not exist).  The second component is the list
of filenames touched (existence-checked / read), in order: on an error the
loop stops before touching any later filename. -/
def loadEnsembleStates (fs : String → Option (EnsSnapshot A M)) :
    List String → Except PyError (List (EnsSnapshot A M)) × List String
  | [] => (Except.ok [], [])
  | p :: ps =>
    match fs p with
    | none => (Except.error ⟨"IOError", "Model file not found: " ++ p⟩, [p])
    | some st =>
      let rest := loadEnsembleStates fs ps
      (rest.1.map (st :: ·), p :: rest.2)

/-- The function `load_ensemble_for_inference(filenames, src_dict, dst_dict)`: load every
snapshot (first loop), take `args = states[0]['args']` (an `IndexError` when
`filenames` is empty), then build one model per snapshot from that shared
configuration with the snapshot's own weights. -/
def load_ensemble_for_inference (fs : String → Option (EnsSnapshot A M))
    (src_dict : S) (dst_dict : D) (filenames : List String) :
    Except PyError (List (BuiltModel A S D M)) × List String :=
  match loadEnsembleStates fs filenames with
  | (Except.error e, touched) => (Except.error e, touched)
  | (Except.ok states, touched) =>
    match states with
    | [] => (Except.error ⟨"IndexError", "list index out of range"⟩, touched)
    | s0 :: _ =>
      (Except.ok (states.map fun st => ⟨s0.args, src_dict, dst_dict, st.model⟩), touched)

theorem loadEnsembleStates_all_some (fs : String → Option (EnsSnapshot A M))
    (g : String → EnsSnapshot A M) :
    ∀ paths : List String, (∀ q ∈ paths, fs q = some (g q)) →
      loadEnsembleStates fs paths = (Except.ok (paths.map g), paths) := by
  intro paths
  induction paths with
  | nil => intro _; rfl
  | cons p ps ih =>
    intro hall
    have hp : fs p = some (g p) := hall p (List.mem_cons_self p ps)
    have hps := ih (fun q hq => hall q (List.mem_cons_of_mem p hq))
    simp [loadEnsembleStates, hp, hps]
    rfl

theorem loadEnsembleStates_first_missing (fs : String → Option (EnsSnapshot A M)) :
    ∀ (l1 : List String) (p : String) (l2 : List String),
      (∀ q ∈ l1, (fs q).isSome) → fs p = none →
      loadEnsembleStates fs (l1 ++ p :: l2) =
        (Except.error ⟨"IOError", "Model file not found: " ++ p⟩, l1 ++ [p]) := by
  intro l1
  induction l1 with
  | nil => intro p l2 _ hp; simp [loadEnsembleStates, hp]
  | cons q qs ih =>
    intro p l2 hall hp
    have hq : (fs q).isSome := hall q (List.mem_cons_self q qs)
    obtain ⟨s, hs⟩ := Option.isSome_iff_exists.mp hq
    have hrec := ih p l2 (fun x hx => hall x (List.mem_cons_of_mem q hx)) hp
    simp [loadEnsembleStates, hs, hrec]
    rfl

/-- C7 (amended): in ensemble loading, if some path does not exist then the
whole load aborts with the code's `IOError("Model file not found: ...")` (not
a `FileNotFoundError`) at the first missing path, touching exactly the paths
up to and including it — no later path is read; and when every path exists
and the path list is nonempty, the result is one built model per input path
in input order, each constructed from the first snapshot's configuration with
that snapshot's own weights loaded. -/
theorem load_ensemble_for_inference_spec (fs : String → Option (EnsSnapshot A M))
    (src_dict : S) (dst_dict : D) :
    (∀ (l1 : List String) (p : String) (l2 : List String),
      (∀ q ∈ l1, (fs q).isSome) → fs p = none →
      load_ensemble_for_inference fs src_dict dst_dict (l1 ++ p :: l2) =
        (Except.error ⟨"IOError", "Model file not found: " ++ p⟩, l1 ++ [p])) ∧
    (∀ (p0 : String) (rest : List String) (g : String → EnsSnapshot A M),
      (∀ q ∈ p0 :: rest, fs q = some (g q)) →
      load_ensemble_for_inference fs src_dict dst_dict (p0 :: rest) =
        (Except.ok ((p0 :: rest).map fun p =>
          (⟨(g p0).args, src_dict, dst_dict, (g p).model⟩ : BuiltModel A S D M)),
         p0 :: rest)) := by
  constructor
  · intro l1 p l2 h1 hp
    unfold load_ensemble_for_inference
    rw [loadEnsembleStates_first_missing fs l1 p l2 h1 hp]
  · intro p0 rest g hall
    unfold load_ensemble_for_inference
    rw [loadEnsembleStates_all_some fs g (p0 :: rest) hall]
    simp

/-- Witness for C7 with the filesystem `{p0 ↦ ⟨7, 8⟩, p2 ↦ ⟨7, 8⟩}` and
`p1` missing: the load of `[p0, p1, p2]` aborts with the `IOError` having
touched only `p0` and `p1` — `p2` is never read. -/
theorem load_ensemble_for_inference_spec_witness :
    load_ensemble_for_inference
      (fun s => if s = "p1" then none else some (⟨7, 8⟩ : EnsSnapshot Int Int))
      (0 : Int) (0 : Int) ["p0", "p1", "p2"] =
      (Except.error ⟨"IOError", "Model file not found: p1"⟩, ["p0", "p1"]) :=
  (load_ensemble_for_inference_spec _ _ _).1 ["p0"] "p1" ["p2"]
    (by decide) (by decide)

/-- Counterexample for C7 as stated: the claim names the failure
`FileNotFoundError`, but the code raises `IOError` (with message
`"Model file not found: p1"`); moreover on the empty path list — where every
path trivially exists — the load does not return an empty ensemble but fails
with an `IndexError` when reading the first snapshot's configuration. -/
theorem load_ensemble_for_inference_ioerror :
    (load_ensemble_for_inference (fun _ => (none : Option (EnsSnapshot Int Int)))
        (0 : Int) (0 : Int) ["p1", "p2"] =
      (Except.error ⟨"IOError", "Model file not found: p1"⟩, ["p1"]) ∧
      ("IOError" : String) ≠ "FileNotFoundError") ∧
    load_ensemble_for_inference (fun _ => some (⟨7, 8⟩ : EnsSnapshot Int Int))
        (0 : Int) (0 : Int) [] =
      (Except.error ⟨"IndexError", "list index out of range"⟩, []) :=
  ⟨⟨rfl, by decide⟩, rfl⟩

/-- An exact decimal numeral `num / 10 ^ shift`, the kernel-computable model
of the floating-point values `np.fromstring` parses (IEEE rounding is
abstracted away; distinct numerals such as `2.0` and `2` keep distinct
representations, which is harmless since only parser outputs are compared). -/
structure Decimal where
  num : Int
  shift : Nat
deriving DecidableEq, Repr

/-- The rational value a `Decimal` denotes. -/
def Decimal.toRat (d : Decimal) : ℚ :=
  (d.num : ℚ) / 10 ^ d.shift

/-- Digits of a decimal numeral to a natural number, as positional
accumulation. -/
def digitsToNat (cs : List Char) : Nat :=
  cs.foldl (fun n c => 10 * n + (c.toNat - '0'.toNat)) 0

/-- An unsigned decimal numeral `intpart[.fracpart]`. -/
def parseUnsignedDecimal (cs : List Char) : Decimal :=
  ⟨(digitsToNat (cs.takeWhile (fun c => c ≠ '.') ++
      ((cs.dropWhile (fun c => c ≠ '.')).drop 1)) : Int),
   ((cs.dropWhile (fun c => c ≠ '.')).drop 1).length⟩

/-- A possibly negated decimal numeral. -/
def parseDecimal (cs : List Char) : Decimal :=
  match cs with
  | '-' :: rest => ⟨-(parseUnsignedDecimal rest).num, (parseUnsignedDecimal rest).shift⟩
  | cs => parseUnsignedDecimal cs

/-- Splitting a character list at every space, keeping empty pieces (the
pieces `str.split(' ')` would produce). -/
def splitSpaces : List Char → List Char → List (List Char)
  | [], acc => [acc.reverse]
  | c :: rest, acc =>
    if c = ' ' then acc.reverse :: splitSpaces rest []
    else splitSpaces rest (c :: acc)

/-- The call `np.fromstring(vec, sep=' ')` on well-formed space-separated decimal
numerals: split on spaces, drop empty tokens, parse each remaining token. -/
def parseFloatTokens (s : String) : List Decimal :=
  ((splitSpaces s.toList []).filter (fun t => t ≠ [])).map parseDecimal

/-- The unpacking `word, vec = line.split(' ', 1)`: the text before the first space
character and the remainder after that space; `none` when the line contains
no space, in which case the unpacking raises `ValueError`. -/
def splitOnFirstSpace (line : String) : Option (String × String) :=
  match line.toList.dropWhile (fun c => c ≠ ' ') with
  | [] => none
  | _ :: rest =>
    some (String.mk (line.toList.takeWhile (fun c => c ≠ ' ')), String.mk rest)

/-- Python dictionary assignment `d[k] = v` on an insertion-ordered
association list: overwrite in place when the key exists, append otherwise. -/
def dictInsert {V : Type} (d : List (String × V)) (k : String) (v : V) :
    List (String × V) :=
  if d.any (fun kv => kv.1 = k) then
    d.map (fun kv => if kv.1 = k then (k, v) else kv)
  else d ++ [(k, v)]

/-- One iteration of the line loop of `parse_embedding` (for `i ≥ 1`): split
the line at the first space, store
`embedd_dict[word] = np.fromstring(vec, sep=' ')`, and remember `word`.  The
accumulator is `none` once an iteration has raised. -/
def parseLinesStep (acc : Option (List (String × List Decimal) × Option String))
    (line : String) : Option (List (String × List Decimal) × Option String) :=
  acc.bind fun du =>
    (splitOnFirstSpace line).map fun wv =>
      (dictInsert du.1 wv.1 (parseFloatTokens wv.2), some wv.1)

/-- The line loop of `parse_embedding` over the data lines (every line after
the header), starting from the empty dictionary and `word = None`. -/
def parseLines (lines : List String) :
    Option (List (String × List Decimal) × Option String) :=
  lines.foldl parseLinesStep (some ([], none))

/-- The observable outcome of a successful `parse_embedding` call: the
returned dictionary, the reference dimension
`embedd_dim = len(embedd_dict[word])` computed from the last parsed word,
and the rows for which the mismatch report `print(len(v), embedd_dim)`
fired, each recorded as `(token, len(v))`. -/
structure EmbedParse where
  table : List (String × List Decimal)
  dim : Nat
  reported : List (String × Nat)
deriving DecidableEq, Repr

/-- The function `parse_embedding(embed_path)`.  The file is given as its list of lines
(terminators stripped).  The first line is skipped (`if i == 0: continue`);
after the loop the source evaluates `len(embedd_dict[word])`, which raises
when no data line was read (`word` is still `None`), and then reports every
row whose vector length differs from that reference dimension. -/
def parse_embedding (file : List String) : Option EmbedParse := do
  let dw ← parseLines (file.drop 1)
  let w ← dw.2
  let v ← dw.1.lookup w
  some ⟨dw.1, v.length,
    (dw.1.filter (fun kv => kv.2.length ≠ v.length)).map (fun kv => (kv.1, kv.2.length))⟩

/-- The token of a data line as the code computes it: the text before the
first space character. -/
def lineKey (l : String) : String :=
  String.mk (l.toList.takeWhile (fun c => c ≠ ' '))

/-- The vector of a data line as the code computes it: the parsed floats of
the text after the first space character. -/
def lineVec (l : String) : List Decimal :=
  parseFloatTokens (String.mk ((l.toList.dropWhile (fun c => c ≠ ' ')).drop 1))

/-- The dictionary built from a list of data lines: insert each line's token
and vector in order. -/
def embedTableOf (lines : List String) : List (String × List Decimal) :=
  lines.foldl (fun d l => dictInsert d (lineKey l) (lineVec l)) []

/-- The key claim C8 prescribes for a data line, from the spec's words: the
text before the first whitespace run. -/
def claimKey (l : String) : String :=
  String.mk (l.toList.takeWhile (fun c => ¬ c.isWhitespace))

/-- C10: the embedding parser requires at least one data line after the
header: on a file consisting only of the header line, or on an empty file,
`parse_embedding` does not return an empty table but fails, because after
the loop it unconditionally evaluates `len(embedd_dict[word])` with `word`
still `None`. -/
theorem parse_embedding_requires_data (header : String) :
    parse_embedding [header] = none ∧ parse_embedding ([] : List String) = none :=
  ⟨rfl, rfl⟩

theorem splitOnFirstSpace_eq {l w v : String}
    (h : splitOnFirstSpace l = some (w, v)) :
    w = lineKey l ∧ parseFloatTokens v = lineVec l := by
  unfold splitOnFirstSpace at h
  cases hd : l.toList.dropWhile (fun c => c ≠ ' ') with
  | nil => rw [hd] at h; cases h
  | cons c rest =>
    rw [hd] at h
    cases h
    refine ⟨rfl, ?_⟩
    unfold lineVec
    rw [hd]
    rfl

theorem parseLines_foldl_none (lines : List String) :
    lines.foldl parseLinesStep none = none := by
  induction lines with
  | nil => rfl
  | cons l ls ih => exact ih

theorem parseLines_eq :
    ∀ (lines : List String) (d0 : List (String × List Decimal)) (w0 : Option String)
      (d : List (String × List Decimal)) (w : Option String),
      lines.foldl parseLinesStep (some (d0, w0)) = some (d, w) →
      d = lines.foldl (fun t l => dictInsert t (lineKey l) (lineVec l)) d0 ∧
      w = (match lines.getLast? with
           | none => w0
           | some l => some (lineKey l)) := by
  intro lines
  induction lines with
  | nil =>
    intro d0 w0 d w h
    cases h
    exact ⟨rfl, rfl⟩
  | cons l ls ih =>
    intro d0 w0 d w h
    rw [List.foldl_cons] at h
    cases hs : splitOnFirstSpace l with
    | none =>
      rw [show parseLinesStep (some (d0, w0)) l = none by
            simp [parseLinesStep, hs],
          parseLines_foldl_none] at h
      cases h
    | some wv =>
      obtain ⟨a, b⟩ := wv
      rw [show parseLinesStep (some (d0, w0)) l =
            some (dictInsert d0 a (parseFloatTokens b), some a) by
            simp [parseLinesStep, hs]] at h
      obtain ⟨hk, hv⟩ := splitOnFirstSpace_eq hs
      obtain ⟨hd, hw⟩ := ih _ _ _ _ h
      subst hk
      constructor
      · rw [hd, List.foldl_cons, hv]
      · rw [hw]
        cases ls with
        | nil => rfl
        | cons x xs =>
          cases hgl : (x :: xs).getLast? with
          | none => exact absurd (List.getLast?_eq_none_iff.mp hgl) (by simp)
          | some y => rw [List.getLast?_cons_cons, hgl]

/-- Inversion of a successful `parse_embedding` run into the loop result and
the reference-dimension lookup it performed. -/
theorem parse_embedding_inv (file : List String) (r : EmbedParse)
    (hp : parse_embedding file = some r) :
    ∃ d w v, parseLines (file.drop 1) = some (d, some w) ∧
      d.lookup w = some v ∧
      r = ⟨d, v.length,
        (d.filter (fun kv => kv.2.length ≠ v.length)).map (fun kv => (kv.1, kv.2.length))⟩ := by
  unfold parse_embedding at hp
  cases hq : parseLines (file.drop 1) with
  | none => rw [hq] at hp; simp at hp
  | some dw =>
    obtain ⟨d, w?⟩ := dw
    rw [hq] at hp
    simp only [Option.bind_eq_bind, Option.some_bind] at hp
    cases w? with
    | none => simp at hp
    | some w =>
      simp only [Option.some_bind] at hp
      cases hl : List.lookup w d with
      | none => rw [show (d, some w).1.lookup w = List.lookup w d from rfl, hl] at hp; simp at hp
      | some v =>
        rw [show (d, some w).1.lookup w = List.lookup w d from rfl, hl] at hp
        simp only [Option.some_bind] at hp
        cases hp
        exact ⟨d, w, v, rfl, hl, rfl⟩

/-- C8 (amended): the embedding parser always skips the first line of the
file regardless of its content, and — whenever the parse succeeds, which
requires every data line to contain a space character — its table maps each
data line to an entry keyed by the text before the first *space* (not the
first whitespace run: a tab does not end the token) with the parsed floats
of the remainder as its vector, later lines overwriting earlier entries with
the same token.  On the concrete file of the claim this yields exactly the
two entries `"the"` and `"at"` with their 5-length vectors (see the
witness). -/
theorem parse_embedding_lines_spec :
    (∀ (h1 h2 : String) (rest : List String),
      parse_embedding (h1 :: rest) = parse_embedding (h2 :: rest)) ∧
    (∀ (h : String) (rest : List String) (r : EmbedParse),
      parse_embedding (h :: rest) = some r →
      r.table = embedTableOf rest) := by
  constructor
  · intro h1 h2 rest
    rfl
  · intro h rest r hp
    obtain ⟨d, w, v, hq, _, rfl⟩ := parse_embedding_inv (h :: rest) r hp
    exact (parseLines_eq rest [] none d (some w) hq).1

/-- Witness for C8 at the claim's concrete file: exactly the two entries
`"the"` and `"at"`, each a 5-length vector of the parsed decimal values
(`⟨-1, 1⟩` denotes `-0.1`, etc.), and the table is the per-line insert of
(text before first space, parsed floats). -/
theorem parse_embedding_lines_spec_witness :
    parse_embedding ["2 5", "the -0.1 -0.2 0.3 0.1 0.4", "at 0.0 0.1 -0.1 0.0 0.2"] =
      some ⟨[("the", [⟨-1, 1⟩, ⟨-2, 1⟩, ⟨3, 1⟩, ⟨1, 1⟩, ⟨4, 1⟩]),
             ("at", [⟨0, 1⟩, ⟨1, 1⟩, ⟨-1, 1⟩, ⟨0, 1⟩, ⟨2, 1⟩])], 5, []⟩ ∧
    (⟨[("the", [⟨-1, 1⟩, ⟨-2, 1⟩, ⟨3, 1⟩, ⟨1, 1⟩, ⟨4, 1⟩]),
       ("at", [⟨0, 1⟩, ⟨1, 1⟩, ⟨-1, 1⟩, ⟨0, 1⟩, ⟨2, 1⟩])], 5, []⟩ : EmbedParse).table =
      embedTableOf ["the -0.1 -0.2 0.3 0.1 0.4", "at 0.0 0.1 -0.1 0.0 0.2"] :=
  ⟨by decide,
   parse_embedding_lines_spec.2 "2 5"
     ["the -0.1 -0.2 0.3 0.1 0.4", "at 0.0 0.1 -0.1 0.0 0.2"] _ (by decide)⟩

/-- Counterexample for C8 as stated: the claim keys each entry by the text
before the first *whitespace run*, but the code splits at the first *space*
character only.  On the data line `"the\t1.0 2.0"` the claimed key is
`"the"`, yet the parsed table's only entry is keyed `"the\t1.0"` and no
entry keyed `"the"` exists. -/
theorem parse_embedding_whitespace_key_cex :
    claimKey "the\t1.0 2.0" = "the" ∧
    parse_embedding ["2 5", "the\t1.0 2.0"] =
      some ⟨[("the\t1.0", [⟨20, 1⟩])], 1, []⟩ ∧
    ([("the\t1.0", ([⟨20, 1⟩] : List Decimal))]).lookup "the" = none ∧
    ("the\t1.0" : String) ≠ "the" :=
  ⟨by decide, by decide, by decide, by decide⟩

/-- C9 (amended): the mismatch report fires exactly for the rows whose
vector length differs from the *last* parsed row's vector length (the
reference dimension `embedd_dim` is read from `embedd_dict[word]` with
`word` the last parsed token, not from the first row), and every such
malformed row is kept: the resulting table is exactly the per-line insert
fold of the data lines, unaffected by any mismatch. -/
theorem parse_embedding_report_spec (file : List String) (r : EmbedParse)
    (hp : parse_embedding file = some r) :
    (∀ k v, (k, v) ∈ r.table → ((k, v.length) ∈ r.reported ↔ v.length ≠ r.dim)) ∧
    r.table = embedTableOf (file.drop 1) ∧
    (∀ l, (file.drop 1).getLast? = some l →
      ∃ v, r.table.lookup (lineKey l) = some v ∧ r.dim = v.length) := by
  obtain ⟨d, w, v0, hq, hl, rfl⟩ := parse_embedding_inv file r hp
  obtain ⟨hd, hw⟩ := parseLines_eq (file.drop 1) [] none d (some w) hq
  refine ⟨?_, hd, ?_⟩
  · intro k v hkv
    constructor
    · intro hmem
      obtain ⟨⟨k2, v2⟩, hmem2, heq2⟩ := List.mem_map.mp hmem
      obtain ⟨_, hne2⟩ := List.mem_filter.mp hmem2
      have hk2 : k2 = k := congrArg Prod.fst heq2
      have hl2 : v2.length = v.length := congrArg Prod.snd heq2
      rw [← hl2]
      simpa using hne2
    · intro hne
      exact List.mem_map.mpr
        ⟨(k, v), List.mem_filter.mpr ⟨hkv, by simpa using hne⟩, rfl⟩
  · intro l hlast
    rw [hlast] at hw
    cases hw
    exact ⟨v0, hl, rfl⟩

/-- Witness for C9 at the file `["h", "a 1.0", "b 1.0 2.0"]`: the malformed
row `"a"` (vector length 1, reference dimension 2) is reported and the
table is the plain insert fold, i.e. the row is kept. -/
theorem parse_embedding_report_spec_witness :
    (("a", 1) ∈
      (⟨[("a", [⟨10, 1⟩]), ("b", [⟨10, 1⟩, ⟨20, 1⟩])], 2, [("a", 1)]⟩ : EmbedParse).reported ↔
      (1 : Nat) ≠ 2) ∧
    (⟨[("a", [⟨10, 1⟩]), ("b", [⟨10, 1⟩, ⟨20, 1⟩])], 2, [("a", 1)]⟩ : EmbedParse).table =
      embedTableOf ["a 1.0", "b 1.0 2.0"] :=
  ⟨(parse_embedding_report_spec ["h", "a 1.0", "b 1.0 2.0"] _ (by decide)).1
      "a" [⟨10, 1⟩] (by decide),
   (parse_embedding_report_spec ["h", "a 1.0", "b 1.0 2.0"] _ (by decide)).2.1⟩

/-- Counterexample for C9 as stated: the claim reports exactly the rows
whose length differs from the *first* parsed row's length, but on the file
`["h", "a 1.0", "b 1.0 2.0"]` the first parsed row has length 1, so the
claim's reported set is `{"b"}`, while the code — whose reference dimension
comes from the *last* parsed row — reports `{"a"}`. -/
theorem parse_embedding_report_first_row_cex :
    parse_embedding ["h", "a 1.0", "b 1.0 2.0"] =
      some ⟨[("a", [⟨10, 1⟩]), ("b", [⟨10, 1⟩, ⟨20, 1⟩])], 2, [("a", 1)]⟩ ∧
    (lineVec "a 1.0").length = 1 ∧
    (([("a", ([⟨10, 1⟩] : List Decimal)), ("b", [⟨10, 1⟩, ⟨20, 1⟩])].filter
        (fun kv => kv.2.length ≠ (lineVec "a 1.0").length)).map Prod.fst) = ["b"] ∧
    ((⟨[("a", [⟨10, 1⟩]), ("b", [⟨10, 1⟩, ⟨20, 1⟩])], 2,
        [("a", 1)]⟩ : EmbedParse).reported.map Prod.fst) = ["a"] ∧
    (["a"] : List String) ≠ ["b"] :=
  ⟨by decide, by decide, by decide, by decide, by decide⟩

end Fairseq
